import Mathlib

/-!
Shallow embedding of the AGS script-compiler common header
(`cs_parser_common.h`): the `SymbolType` classification enum and its
last-in-expression boundary, the binary-layout size constants, the
`FlagSet` bit operations `FlagIsSet` / `SetFlag`, the `TypeQualifier`
bit masks, the `ErrorType` codes, and the `MessageHandler` message store.

`FlagSet` is a C++ `long` (64-bit two's complement here); we model a
flag word as a `Nat` and model the bitwise complement `~flag` used by
`SetFlag` as XOR with the 64-bit all-ones mask.
-/

namespace AGS

/-- The `SymbolType` enum: tags classifying what a `Symbol` denotes,
declared in source order so the C++ enum assigns the values 0, 1, 2, …
consecutively. -/
inductive SymbolType where
  | kSYM_NoType
  | kSYM_Attribute
  | kSYM_Delimiter
  | kSYM_Constant
  | kSYM_Function
  | kSYM_GlobalVar
  | kSYM_LiteralFloat
  | kSYM_LiteralInt
  | kSYM_LiteralString
  | kSYM_LocalVar
  | kSYM_Operator
  | kSYM_StructComponent
  | kSYM_Assign
  | kSYM_AssignMod
  | kSYM_AssignSOp
  | kSYM_Keyword
  | kSYM_Import
  | kSYM_UndefinedStruct
  | kSYM_Vartype
deriving DecidableEq, Repr

/-- The numeric value the C++ enum gives each `SymbolType` tag
(consecutive from `kSYM_NoType = 0`). -/
def SymbolType.val : SymbolType → Nat
  | .kSYM_NoType => 0
  | .kSYM_Attribute => 1
  | .kSYM_Delimiter => 2
  | .kSYM_Constant => 3
  | .kSYM_Function => 4
  | .kSYM_GlobalVar => 5
  | .kSYM_LiteralFloat => 6
  | .kSYM_LiteralInt => 7
  | .kSYM_LiteralString => 8
  | .kSYM_LocalVar => 9
  | .kSYM_Operator => 10
  | .kSYM_StructComponent => 11
  | .kSYM_Assign => 12
  | .kSYM_AssignMod => 13
  | .kSYM_AssignSOp => 14
  | .kSYM_Keyword => 15
  | .kSYM_Import => 16
  | .kSYM_UndefinedStruct => 17
  | .kSYM_Vartype => 18

/-- Source: `constexpr SymbolType kSYM_LastInExpression = kSYM_StructComponent;`
— types starting (numerically) with this aren't part of expressions. -/
def kSYM_LastInExpression : SymbolType := .kSYM_StructComponent

/-- The parser's expression-legality ordering test: a tag is legal
inside an expression iff its enum value is strictly below the
`kSYM_LastInExpression` boundary. -/
def SymbolType.isLegalInExpression (t : SymbolType) : Bool :=
  t.val < kSYM_LastInExpression.val

/-- The `SymbolType` tags in the order the source declares them. -/
def symbolTypeOrder : List SymbolType :=
  [.kSYM_NoType, .kSYM_Attribute, .kSYM_Delimiter, .kSYM_Constant,
   .kSYM_Function, .kSYM_GlobalVar, .kSYM_LiteralFloat, .kSYM_LiteralInt,
   .kSYM_LiteralString, .kSYM_LocalVar, .kSYM_Operator,
   .kSYM_StructComponent, .kSYM_Assign, .kSYM_AssignMod, .kSYM_AssignSOp,
   .kSYM_Keyword, .kSYM_Import, .kSYM_UndefinedStruct, .kSYM_Vartype]

/-- Formalisation of the spec's words: the tags the spec lists strictly
before "struct component" (no-type, attribute, delimiter, constant,
function, global variable, float/int/string literal, local variable,
operator) — per the spec, exactly these are legal inside an expression. -/
def specExpressionLegal (t : SymbolType) : Bool :=
  match t with
  | .kSYM_NoType | .kSYM_Attribute | .kSYM_Delimiter | .kSYM_Constant
  | .kSYM_Function | .kSYM_GlobalVar | .kSYM_LiteralFloat
  | .kSYM_LiteralInt | .kSYM_LiteralString | .kSYM_LocalVar
  | .kSYM_Operator => true
  | _ => false

/-! ### Binary-layout constants -/

def SIZE_OF_CHAR : Nat := 1
def SIZE_OF_DYNPOINTER : Nat := 4
def SIZE_OF_FLOAT : Nat := 4
def SIZE_OF_INT : Nat := 4
def SIZE_OF_LONG : Nat := 4
def SIZE_OF_SHORT : Nat := 2
def SIZE_OF_STACK_CELL : Nat := 4
def STRUCT_ALIGNTO : Nat := 4
def MAX_FUNCTION_PARAMETERS : Nat := 15

/-! ### FlagSet operations

`typedef long FlagSet;` — a collection of bits.  A 64-bit word is
modelled as a `Nat`; `~flag` (two's-complement bitwise NOT within the
64-bit word) is XOR with the all-ones 64-bit mask. -/

/-- The all-ones 64-bit word, so that `~flag` on a C++ `long` is
`flag ^^^ longAllOnes`. -/
def longAllOnes : Nat := 2 ^ 64 - 1

/-- Source: `FlagIsSet(fl_set, flag) = (0 != (fl_set & flag))`. -/
def FlagIsSet (fl_set flag : Nat) : Bool :=
  fl_set &&& flag != 0

/-- Source: `SetFlag(fl_set, flag, val)`: `if (val) fl_set |= flag; else
fl_set &= ~flag;` — returns the updated flag word. -/
def SetFlag (fl_set flag : Nat) (val : Bool) : Nat :=
  if val then fl_set ||| flag else fl_set &&& (flag ^^^ longAllOnes)

/-! ### TypeQualifier bit masks -/

def kTQ_None : Nat := 0
def kTQ_Attribute : Nat := 1 <<< 0
def kTQ_Autoptr : Nat := 1 <<< 1
def kTQ_Builtin : Nat := 1 <<< 2
def kTQ_Const : Nat := 1 <<< 3
def kTQ_ImportStd : Nat := 1 <<< 4
def kTQ_ImportTry : Nat := 1 <<< 5
def kTQ_Managed : Nat := 1 <<< 6
def kTQ_Protected : Nat := 1 <<< 7
def kTQ_Readonly : Nat := 1 <<< 8
def kTQ_Static : Nat := 1 <<< 9
def kTQ_Stringstruct : Nat := 1 <<< 10
def kTQ_Writeprotected : Nat := 1 <<< 11
def kTQ_Import : Nat := kTQ_ImportStd ||| kTQ_ImportTry

/-- The twelve single-bit qualifiers, in source order. -/
def singleBitQualifiers : List Nat :=
  [kTQ_Attribute, kTQ_Autoptr, kTQ_Builtin, kTQ_Const, kTQ_ImportStd,
   kTQ_ImportTry, kTQ_Managed, kTQ_Protected, kTQ_Readonly, kTQ_Static,
   kTQ_Stringstruct, kTQ_Writeprotected]

/-! ### ErrorType codes -/

def kERR_None : Int := 0
def kERR_UserError : Int := -1
def kERR_InternalError : Int := -99

/-! ### MessageHandler -/

/-- The enum `MessageHandler::Severity`: `kSV_None`, `kSV_Info`, `kSV_Warning`,
`kSV_Error`, in that order. -/
inductive Severity where
  | kSV_None
  | kSV_Info
  | kSV_Warning
  | kSV_Error
deriving DecidableEq, Repr

/-- The struct `MessageHandler::Entry`: one diagnostic — severity, section name,
line number, message text. -/
structure Entry where
  Severity : Severity
  Section : String
  Lineno : Nat
  Message : String
deriving DecidableEq, Repr

/-- The class `MessageHandler`: its state is the vector `_entries` of diagnostics
in emission order. -/
structure MessageHandler where
  entries : List Entry
deriving DecidableEq, Repr

/-- Method `AddMessage(sev, sec, line, msg)`:
`_entries.emplace_back(sev, sec, line, msg);` — constructs the entry at
the back of `_entries`. -/
def MessageHandler.AddMessage (h : MessageHandler) (sev : Severity)
    (sec : String) (line : Nat) (msg : String) : MessageHandler :=
  { entries := h.entries ++ [⟨sev, sec, line, msg⟩] }

/-- Method `GetMessages()` returns (a copy of) `_entries`. -/
def MessageHandler.GetMessages (h : MessageHandler) : List Entry :=
  h.entries

/-- Method `Clear()` empties `_entries`. -/
def MessageHandler.Clear (_h : MessageHandler) : MessageHandler :=
  { entries := [] }

/-- The static `_noError` sentinel entry: a zero-initialized
`MessageHandler::Entry` — severity `kSV_None`, empty section, line 0,
empty message. -/
def noError : Entry := ⟨.kSV_None, "", 0, ""⟩

/-- Modelled from the spec: the body of `MessageHandler::GetError` is
declared in the header but its definition is not among the sources.
Per the spec, `GetError()` "returns the first entry with error
severity, or a sentinel \"no error\" entry if none exists": scan
`_entries` front to back for the first `kSV_Error` entry. -/
def getErrorFrom : List Entry → Entry
  | [] => noError
  | e :: rest => if e.Severity = .kSV_Error then e else getErrorFrom rest

/-- Modelled from the spec: `MessageHandler::GetError`. -/
def MessageHandler.GetError (h : MessageHandler) : Entry :=
  getErrorFrom h.entries

/-! ## Helper lemmas -/

theorem lor_eq_zero_iff (a b : Nat) : a ||| b = 0 ↔ a = 0 ∧ b = 0 := by
  constructor
  · intro h
    have ha : a = 0 := by
      apply Nat.eq_of_testBit_eq
      intro i
      have hbit := congrArg (fun x => Nat.testBit x i) h
      simp only [Nat.testBit_or, Nat.zero_testBit, Bool.or_eq_false_iff] at hbit
      simp [hbit.1]
    have hb : b = 0 := by
      apply Nat.eq_of_testBit_eq
      intro i
      have hbit := congrArg (fun x => Nat.testBit x i) h
      simp only [Nat.testBit_or, Nat.zero_testBit, Bool.or_eq_false_iff] at hbit
      simp [hbit.2]
    exact ⟨ha, hb⟩
  · rintro ⟨rfl, rfl⟩
    rfl

theorem lor_bne_zero (a b : Nat) : (a ||| b != 0) = (a != 0 || b != 0) := by
  rw [Bool.eq_iff_iff]
  by_cases h1 : a = 0 <;> by_cases h2 : b = 0 <;>
    simp [bne_iff_ne, lor_eq_zero_iff, h1, h2]

/-- Masking with the 64-bit complement of `f` leaves a 64-bit word `g`
disjoint from `f` unchanged. -/
theorem notMask_and_of_disjoint (f g : Nat) (hfg : f &&& g = 0)
    (hg : g < 2 ^ 64) : (f ^^^ longAllOnes) &&& g = g := by
  apply Nat.eq_of_testBit_eq
  intro i
  rw [Nat.testBit_and, Nat.testBit_xor]
  cases hgi : g.testBit i with
  | false => simp [hgi]
  | true =>
    have hi64 : i < 64 := by
      by_contra hge
      have hlt : g < 2 ^ i :=
        lt_of_lt_of_le hg (Nat.pow_le_pow_right (by norm_num) (le_of_not_lt hge))
      rw [Nat.testBit_lt_two_pow hlt] at hgi
      exact Bool.false_ne_true hgi
    have hfi : f.testBit i = false := by
      have hz := congrArg (fun x => Nat.testBit x i) hfg
      simp only [Nat.testBit_and, Nat.zero_testBit] at hz
      cases hf : f.testBit i
      · rfl
      · rw [hf, hgi] at hz
        exact absurd hz (by simp)
    have hmask : longAllOnes.testBit i = true := by
      rw [longAllOnes, Nat.testBit_two_pow_sub_one]
      simp [hi64]
    rw [hfi, hmask]
    rfl

theorem getErrorFrom_of_no_error (l : List Entry)
    (hall : ∀ e ∈ l, e.Severity ≠ Severity.kSV_Error) :
    getErrorFrom l = noError := by
  induction l with
  | nil => rfl
  | cons e rest ih =>
    rw [getErrorFrom, if_neg (hall e (List.mem_cons_self e rest))]
    exact ih fun x hx => hall x (List.mem_cons_of_mem e hx)

theorem getErrorFrom_first (l : List Entry) (i : Nat) (hi : i < l.length)
    (herr : (l.get ⟨i, hi⟩).Severity = Severity.kSV_Error)
    (hbefore : ∀ (j : Nat) (hj : j < i),
      (l.get ⟨j, Nat.lt_trans hj hi⟩).Severity ≠ Severity.kSV_Error) :
    getErrorFrom l = l.get ⟨i, hi⟩ := by
  induction l generalizing i with
  | nil => exact absurd hi (Nat.not_lt_zero i)
  | cons e rest ih =>
    cases i with
    | zero =>
      simp only [List.get] at herr ⊢
      rw [getErrorFrom, if_pos herr]
    | succ j =>
      have hne : e.Severity ≠ Severity.kSV_Error :=
        hbefore 0 (Nat.succ_pos j)
      rw [getErrorFrom, if_neg hne]
      exact ih j (Nat.lt_of_succ_lt_succ hi) herr
        fun k hk => hbefore (k + 1) (Nat.succ_lt_succ hk)

/-! ## Claims -/

/-- C1: The `SymbolType` enum declares its tags in exactly the order the
spec lists them (consecutive values 0, 1, …, 18), the boundary constant
`kSYM_LastInExpression` equals `kSYM_StructComponent`, and for every
tag `t` the source's ordering test `t < kSYM_LastInExpression` agrees
with the spec's designation of which tags are legal inside an
expression. -/
theorem symbolType_expression_legality_boundary :
    symbolTypeOrder.map SymbolType.val = List.range 19 ∧
    kSYM_LastInExpression = SymbolType.kSYM_StructComponent ∧
    ∀ t : SymbolType, t.isLegalInExpression = specExpressionLegal t := by
  refine ⟨by decide, rfl, ?_⟩
  intro t
  cases t <;> rfl

/-- C2: The binary-layout constants match the runtime contract:
pointer cell 4, int/float/long cells 4, short 2, char 1, struct
alignment 4, stack cell 4, at most 15 function parameters. -/
theorem binary_layout_constants :
    SIZE_OF_DYNPOINTER = 4 ∧ SIZE_OF_INT = 4 ∧ SIZE_OF_FLOAT = 4 ∧
    SIZE_OF_LONG = 4 ∧ SIZE_OF_SHORT = 2 ∧ SIZE_OF_CHAR = 1 ∧
    STRUCT_ALIGNTO = 4 ∧ SIZE_OF_STACK_CELL = 4 ∧
    MAX_FUNCTION_PARAMETERS = 15 := by
  decide

/-- C3 counterexample: the claim that `kSYM_StructComponent`,
`kSYM_Keyword` and `kSYM_Delimiter` all lie at or past the
last-in-expression boundary is false: `kSYM_Delimiter` has value 2,
strictly below the boundary value 11. -/
theorem pastBoundary_claim_false :
    ¬(SymbolType.kSYM_StructComponent.val ≥ kSYM_LastInExpression.val ∧
      SymbolType.kSYM_Keyword.val ≥ kSYM_LastInExpression.val ∧
      SymbolType.kSYM_Delimiter.val ≥ kSYM_LastInExpression.val) := by
  decide

/-- C3 amended: `kSYM_StructComponent` and `kSYM_Keyword` lie at or
past the last-in-expression boundary, so the ordering test rejects
them in expression position; `kSYM_Delimiter` (value 2) lies strictly
before the boundary (value 11), so the ordering test counts a
delimiter as expression-legal. -/
theorem pastBoundary_amended :
    SymbolType.kSYM_StructComponent.val ≥ kSYM_LastInExpression.val ∧
    SymbolType.kSYM_Keyword.val ≥ kSYM_LastInExpression.val ∧
    SymbolType.kSYM_Delimiter.val < kSYM_LastInExpression.val ∧
    SymbolType.kSYM_Delimiter.isLegalInExpression = true := by
  decide

/-- C4: `kTQ_Import` is the bitwise OR of its two sub-flavors, the
twelve single-bit qualifiers are pairwise disjoint, and for every
qualifier word `q`, `FlagIsSet(q, kTQ_Import)` holds iff `q` contains
`kTQ_ImportStd` or contains `kTQ_ImportTry`. -/
theorem import_union_and_disjoint_qualifiers :
    kTQ_Import = (kTQ_ImportStd ||| kTQ_ImportTry) ∧
    singleBitQualifiers.Pairwise (fun a b => a &&& b = 0) ∧
    ∀ q : Nat, FlagIsSet q kTQ_Import =
      (FlagIsSet q kTQ_ImportStd || FlagIsSet q kTQ_ImportTry) := by
  refine ⟨rfl, by decide, ?_⟩
  intro q
  simp only [FlagIsSet, kTQ_Import, Nat.and_or_distrib_left]
  exact lor_bne_zero (q &&& kTQ_ImportStd) (q &&& kTQ_ImportTry)

/-- C5: `SetFlag` is idempotent: applying it twice with the same flag
and value equals applying it once, for setting and clearing alike. -/
theorem setFlag_idempotent (s f : Nat) (v : Bool) :
    SetFlag (SetFlag s f v) f v = SetFlag s f v := by
  cases v <;>
    simp [SetFlag, Nat.and_assoc, Nat.and_self, Nat.or_assoc, Nat.or_self]

/-- C6: `AddMessage` is a pure append: after it, `GetMessages` yields
the previous sequence with exactly the one new entry at the end, so
earlier entries are unchanged, never reordered, and none is removed. -/
theorem addMessage_pure_append (h : MessageHandler) (sev : Severity)
    (sec : String) (line : Nat) (msg : String) :
    (h.AddMessage sev sec line msg).GetMessages =
      h.GetMessages ++ [⟨sev, sec, line, msg⟩] :=
  rfl

/-- C7: `GetError` returns the first entry in emission order with
error severity; if no entry has error severity it returns the
`noError` sentinel. -/
theorem getError_first_error_or_sentinel (h : MessageHandler) :
    ((∀ e ∈ h.GetMessages, e.Severity ≠ Severity.kSV_Error) →
      h.GetError = noError) ∧
    (∀ (i : Nat) (hi : i < h.GetMessages.length),
      (h.GetMessages.get ⟨i, hi⟩).Severity = Severity.kSV_Error →
      (∀ (j : Nat) (hj : j < i),
        (h.GetMessages.get ⟨j, Nat.lt_trans hj hi⟩).Severity ≠
          Severity.kSV_Error) →
      h.GetError = h.GetMessages.get ⟨i, hi⟩) :=
  ⟨fun hall => getErrorFrom_of_no_error h.entries hall,
   fun i hi herr hbefore => getErrorFrom_first h.entries i hi herr hbefore⟩

/-- C7 witness: on a handler holding only an info and a warning entry,
`GetError` yields the sentinel; on a handler holding a warning followed
by two error entries, `GetError` yields the first error entry. -/
theorem getError_witness :
    (MessageHandler.mk [⟨.kSV_Info, "a", 1, "m1"⟩,
        ⟨.kSV_Warning, "a", 2, "m2"⟩]).GetError = noError ∧
    (MessageHandler.mk [⟨.kSV_Warning, "b", 1, "w"⟩,
        ⟨.kSV_Error, "b", 2, "e1"⟩,
        ⟨.kSV_Error, "b", 3, "e2"⟩]).GetError =
      ⟨.kSV_Error, "b", 2, "e1"⟩ := by
  constructor
  · exact (getError_first_error_or_sentinel _).1 (by decide)
  · have h := (getError_first_error_or_sentinel
      (MessageHandler.mk [⟨.kSV_Warning, "b", 1, "w"⟩,
        ⟨.kSV_Error, "b", 2, "e1"⟩,
        ⟨.kSV_Error, "b", 3, "e2"⟩])).2 1 (by decide) (by decide)
      (fun j hj => by
        interval_cases j
        simp [MessageHandler.GetMessages])
    simpa using h

/-- C8: The `ErrorType` codes are 0, −1 and −99, pairwise distinct, so
"no error", "user error" and "internal error" are distinguishable
outcomes. -/
theorem errorType_codes_distinct :
    kERR_None = 0 ∧ kERR_UserError = -1 ∧ kERR_InternalError = -99 ∧
    kERR_None ≠ kERR_UserError ∧ kERR_None ≠ kERR_InternalError ∧
    kERR_UserError ≠ kERR_InternalError := by
  decide

/-- C9: `SetFlag` touches only the bits of its mask: for any 64-bit
mask `g` disjoint from `f`, setting or clearing `f` leaves
`FlagIsSet(·, g)` unchanged. -/
theorem setFlag_frame (s f g : Nat) (v : Bool) (hfg : f &&& g = 0)
    (hg : g < 2 ^ 64) : FlagIsSet (SetFlag s f v) g = FlagIsSet s g := by
  have hand : SetFlag s f v &&& g = s &&& g := by
    cases v
    · simp only [SetFlag, Bool.false_eq_true, if_false]
      rw [Nat.and_assoc, notMask_and_of_disjoint f g hfg hg]
    · simp only [SetFlag, if_true]
      rw [Nat.and_comm, Nat.and_or_distrib_left, Nat.and_comm g s,
        Nat.and_comm g f, hfg, Nat.or_zero]
  rw [FlagIsSet, FlagIsSet, hand]

/-- C9 witness: clearing `kTQ_ImportStd` on the word holding
`kTQ_Readonly ||| kTQ_ImportStd` does not disturb `kTQ_Readonly`. -/
theorem setFlag_frame_witness :
    kTQ_ImportStd &&& kTQ_Readonly = 0 ∧ kTQ_Readonly < 2 ^ 64 ∧
    FlagIsSet (SetFlag (kTQ_Readonly ||| kTQ_ImportStd) kTQ_ImportStd false)
        kTQ_Readonly =
      FlagIsSet (kTQ_Readonly ||| kTQ_ImportStd) kTQ_Readonly :=
  ⟨by decide, by decide,
   setFlag_frame (kTQ_Readonly ||| kTQ_ImportStd) kTQ_ImportStd
     kTQ_Readonly false (by decide) (by decide)⟩

/-- C10: The default classification `kSYM_NoType` is 0, strictly below
the last-in-expression boundary, so an unclassified symbol passes the
expression-legality ordering test. -/
theorem noType_expression_legal :
    SymbolType.kSYM_NoType.val = 0 ∧
    SymbolType.kSYM_NoType.val < kSYM_LastInExpression.val ∧
    SymbolType.kSYM_NoType.isLegalInExpression = true := by
  decide

end AGS
